import Mathlib

/-!
Shallow embedding of the validation, transformation and repository layer of
the pixel-card application (myspace_FaceID).  JavaScript strings are modelled
as `List Char` (sequences of Unicode scalar values); JavaScript numbers are
modelled as `Int` or `Rat` where fractional behaviour matters; fallible
operations return `Except`; calls to the managed backend (database / blob
storage) and to platform builtins (`atob`, `Date` parsing) are passed in as
explicit oracle parameters, and the queries or effects actually issued are
returned as an explicit trace.
-/

namespace PixelId

/-! ## JavaScript string primitives -/

/-- Character class matched by the JavaScript regex `\s` and stripped by
`String.prototype.trim` (ECMA-262 WhiteSpace plus LineTerminator). -/
def jsWhitespace (c : Char) : Bool :=
  let n := c.toNat
  n = 9 || n = 10 || n = 11 || n = 12 || n = 13 || n = 32 || n = 160 ||
  n = 0x1680 || (0x2000 ≤ n && n ≤ 0x200A) || n = 0x2028 || n = 0x2029 ||
  n = 0x202F || n = 0x205F || n = 0x3000 || n = 0xFEFF

/-- Model of `String.prototype.trim`: drop leading and trailing whitespace. -/
def jsTrim (l : List Char) : List Char :=
  ((l.dropWhile jsWhitespace).reverse.dropWhile jsWhitespace).reverse

/-- Model of `a.startsWith(b)` / an anchored literal regex test: `p` is a
leading segment of `l`. -/
def startsWithL : List Char → List Char → Bool
  | [], _ => true
  | _ :: _, [] => false
  | p :: ps, x :: xs => p = x && startsWithL ps xs

/-- Model of `s.split(',')[1]`: the segment strictly between the first and
the second comma of `s` (everything after the first comma when there is no
second one). -/
def splitCommaSecond (l : List Char) : List Char :=
  ((l.dropWhile (fun c => c ≠ ',')).drop 1).takeWhile (fun c => c ≠ ',')

/-! ## Validation layer (`src/lib/validation.ts`) -/

/-- Result shape returned by every validator in `validation.ts`. -/
structure ValidationResult where
  isValid : Bool
  errors : List String
deriving DecidableEq, Repr

/-- Character class of the user-name regex `/^[a-zA-Z0-9\s\-_'.]+$/`
(`39` is the apostrophe code point). -/
def allowedNameChar (c : Char) : Bool :=
  c.isAlphanum || jsWhitespace c || c = '-' || c = '_' || c.toNat = 39 || c = '.'

/-- Test of the anchored regex `/^[a-zA-Z0-9\s\-_'.]+$/`: at least one
character, all from the allowed class. -/
def validNamePattern (l : List Char) : Bool :=
  !l.isEmpty && l.all allowedNameChar

/-- Embedding of `validateUserName.validate` (validation.ts lines 29-59):
the empty string is falsy and yields the required-error; otherwise the name
is trimmed and the three checks run on the trimmed name, accumulating
error messages. -/
def validateUserName (userName : List Char) : ValidationResult :=
  if userName.isEmpty then
    ⟨false, ["User name is required"]⟩
  else
    let trimmedName := jsTrim userName
    let errs :=
      (if trimmedName.length < 1 then ["User name cannot be empty"] else []) ++
      (if trimmedName.length > 50 then
        ["User name cannot exceed 50 characters"] else []) ++
      (if validNamePattern trimmedName then [] else
        ["User name contains invalid characters. Only letters, numbers, spaces, hyphens, underscores, apostrophes, and periods are allowed"])
    ⟨errs.isEmpty, errs⟩

/-- Upper bound `IMAGE_MAX_SIZE_BYTES = 10 * 1024 * 1024` from
`VALIDATION_LIMITS`. -/
def IMAGE_MAX_SIZE_BYTES : Nat := 10 * 1024 * 1024

/-- Characters matched by the base64 body class `[A-Za-z0-9+/]`. -/
def isB64Char (c : Char) : Bool :=
  c.isAlphanum || c = '+' || c = '/'

/-- Test of the anchored regex `/^[A-Za-z0-9+/]*={0,2}$/`: at most two
trailing `=` characters and base64-alphabet characters everywhere else. -/
def matchB64 (l : List Char) : Bool :=
  (l.reverse.takeWhile (fun c => c = '=')).length ≤ 2 &&
  (l.reverse.dropWhile (fun c => c = '=')).all isB64Char

/-- Data-URI header for PNG images, as matched by
`/^data:image\/(png|jpeg);base64,/`. -/
def pngHeader : List Char := "data:image/png;base64,".data

/-- Data-URI header for JPEG images. -/
def jpegHeader : List Char := "data:image/jpeg;base64,".data

/-- Size estimate `(base64Data.length * 3) / 4` computed inside
`validateImageData` (validation.ts line 98); JavaScript `/` is exact
division here, so it is a rational, not a floor. -/
def estimatedImageSize (base64Data : List Char) : Rat :=
  (base64Data.length * 3 : Rat) / 4

/-- Error message pushed by the size check of `validateImageData`. -/
def sizeErrorMsg : String := "Image size exceeds maximum limit of 10MB"

/-- Embedding of `validateImageData.validate` (validation.ts lines 67-112):
data-URI header test, extraction of the base64 payload after the comma,
base64 regex test, then the size estimate check. -/
def validateImageData (imageData : List Char) : ValidationResult :=
  if imageData.isEmpty then
    ⟨false, ["Image data is required"]⟩
  else if !(startsWithL pngHeader imageData || startsWithL jpegHeader imageData) then
    ⟨false, ["Image data must be a valid PNG or JPEG in base64 format"]⟩
  else
    let base64Data := splitCommaSecond imageData
    if base64Data.isEmpty then
      ⟨false, ["Invalid base64 image format"]⟩
    else if !matchB64 base64Data then
      ⟨false, ["Invalid base64 encoding"]⟩
    else if (IMAGE_MAX_SIZE_BYTES : Rat) < estimatedImageSize base64Data then
      ⟨false, [sizeErrorMsg]⟩
    else
      ⟨true, []⟩

/-- Creation request wire shape `{ userName, imageData }`. -/
structure CreatePixelCardRequest where
  userName : List Char
  imageData : List Char

/-- Embedding of `validateCreatePixelCardRequest` (validation.ts lines
163-189): both field validators run unconditionally and their error lists
are concatenated. -/
def validateCreatePixelCardRequest (request : CreatePixelCardRequest) :
    ValidationResult :=
  let userNameValidation := validateUserName request.userName
  let imageDataValidation := validateImageData request.imageData
  let errs :=
    (if userNameValidation.isValid then [] else userNameValidation.errors) ++
    (if imageDataValidation.isValid then [] else imageDataValidation.errors)
  ⟨errs.isEmpty, errs⟩

/-! ## Transformation utilities (`src/lib/typeUtils.ts`) -/

/-- Embedding of `calculateBase64FileSize` (typeUtils.ts lines 219-228):
strip a data-URI segment before the comma when one is present, count ALL
`=` characters, and return `floor(L*3/4) - padding` (an `Int`, since the
subtraction can go negative in JavaScript). -/
def calculateBase64FileSize (base64Data : List Char) : Int :=
  let base64Content :=
    if base64Data.contains ',' then splitCommaSecond base64Data else base64Data
  let padding := (base64Content.filter (fun c => c = '=')).length
  ((base64Content.length * 3) / 4 : Nat) - (padding : Int)

/-- Model of the JavaScript idiom `x || d` on an optional numeric input:
absent, zero (and, in JavaScript, NaN) fall back to the default. -/
def jsOrNum (x : Option Rat) (d : Rat) : Rat :=
  match x with
  | none => d
  | some v => if v = 0 then d else v

/-- Result shape of `validateAndNormalizePagination`. -/
structure PaginationNormalized where
  page : Int
  limit : Int
  offset : Int
deriving DecidableEq, Repr

/-- Embedding of `validateAndNormalizePagination` (typeUtils.ts lines
181-190): `Math.max(1, Math.floor(page || 1))` and
`Math.min(100, Math.max(1, Math.floor(limit || 20)))`. -/
def validateAndNormalizePagination (page limit : Option Rat) :
    PaginationNormalized :=
  let safePage : Int := max 1 ⌊jsOrNum page 1⌋
  let safeLimit : Int := min 100 (max 1 ⌊jsOrNum limit 20⌋)
  ⟨safePage, safeLimit, (safePage - 1) * safeLimit⟩

/-! ## Entity shapes (`src/types/supabase.ts`) -/

/-- Persisted row shape of the `pixel_cards` table (snake_case fields). -/
structure PixelCardRow where
  id : String
  user_name : String
  image_path : String
  image_url : String
  created_at : String
  updated_at : String
  file_size : Int
  mime_type : String
deriving DecidableEq, Repr

/-- Value of `new Date(s)`: the construction argument is retained; the
instant it denotes is recovered by a `DateModel` oracle. -/
structure JsDate where
  fromString : String
deriving DecidableEq, Repr

/-- Oracle for the platform `Date` semantics: `parse` maps a date string to
its epoch-milliseconds instant (`new Date(s).getTime()`), `render` is the
canonical ISO rendering used by `toISOString`. -/
structure DateModel where
  parse : String → Int
  render : Int → String

/-- Model of `Date.prototype.toISOString` on a `JsDate`. -/
def JsDate.toISOString (dm : DateModel) (d : JsDate) : String :=
  dm.render (dm.parse d.fromString)

/-- In-memory entity shape `PixelCard` (camelCase fields, `Date` values). -/
structure PixelCard where
  id : String
  userName : String
  imagePath : String
  imageUrl : String
  createdAt : JsDate
  updatedAt : JsDate
  fileSize : Int
  mimeType : String
deriving DecidableEq, Repr

/-- Outward API response shape `PixelCardResponse`: a reduced view with no
storage path, no update timestamp and no MIME type. -/
structure PixelCardResponse where
  id : String
  userName : String
  imageUrl : String
  createdAt : String
  fileSize : Int
deriving DecidableEq, Repr

/-- Embedding of `validatePixelCardRow` (typeUtils.ts lines 19-33).  The
runtime `typeof` checks hold by construction in the typed model; the
remaining content is the MIME-type restriction. -/
def validatePixelCardRow (row : PixelCardRow) : Bool :=
  row.mime_type = "image/png" || row.mime_type = "image/jpeg"

/-- Embedding of `transformRowToPixelCard` (typeUtils.ts lines 66-81):
throws on an invalid row, otherwise maps snake_case fields to the entity,
constructing `Date` values from the timestamp strings. -/
def transformRowToPixelCard (row : PixelCardRow) : Except String PixelCard :=
  if !validatePixelCardRow row then
    .error "Invalid pixel card row data"
  else
    .ok
      { id := row.id
        userName := row.user_name
        imagePath := row.image_path
        imageUrl := row.image_url
        createdAt := ⟨row.created_at⟩
        updatedAt := ⟨row.updated_at⟩
        fileSize := row.file_size
        mimeType := row.mime_type }

/-- Embedding of `transformPixelCardToResponse` (typeUtils.ts lines 86-94):
the response keeps id, name, URL and size, and renders `createdAt` with
`toISOString`; path, update timestamp and MIME type are dropped. -/
def transformPixelCardToResponse (dm : DateModel) (pixelCard : PixelCard) :
    PixelCardResponse :=
  { id := pixelCard.id
    userName := pixelCard.userName
    imageUrl := pixelCard.imageUrl
    createdAt := JsDate.toISOString dm pixelCard.createdAt
    fileSize := pixelCard.fileSize }

/-! ## Repository read path (`pixelCardRepository.ts`) -/

/-- Hex digit under the regex `/i` flag. -/
def isHexDigitI (c : Char) : Bool :=
  c.isDigit || ('a' ≤ c && c ≤ 'f') || ('A' ≤ c && c ≤ 'F')

/-- Version digit class `[1-5]`. -/
def isVersionDigit (c : Char) : Bool :=
  '1' ≤ c && c ≤ '5'

/-- Variant class `[89ab]` under the `/i` flag. -/
def isVariantChar (c : Char) : Bool :=
  c = '8' || c = '9' || c = 'a' || c = 'b' || c = 'A' || c = 'B'

/-- Embedding of `PixelCardRepository.isValidUUID` (regex
`/^[0-9a-f]{8}-[0-9a-f]{4}-[1-5][0-9a-f]{3}-[89ab][0-9a-f]{3}-[0-9a-f]{12}$/i`):
36 characters, dashes at positions 8, 13, 18, 23, hex elsewhere, with the
version and variant classes at positions 14 and 19. -/
def isValidUUID (id : String) : Bool :=
  let l := id.data
  l.length = 36 &&
  (l.take 8).all isHexDigitI && (l.get? 8 == some '-') &&
  ((l.drop 9).take 4).all isHexDigitI && (l.get? 13 == some '-') &&
  (l.get? 14).elim false isVersionDigit &&
  ((l.drop 15).take 3).all isHexDigitI && (l.get? 18 == some '-') &&
  (l.get? 19).elim false isVariantChar &&
  ((l.drop 20).take 3).all isHexDigitI && (l.get? 23 == some '-') &&
  (l.drop 24).all isHexDigitI

/-- Outcome of a single-row backend query (`.select(...).eq('id', id)
.single()`): a row, the PostgREST zero-rows condition `PGRST116`, or any
other backend error. -/
inductive QueryOutcome where
  | found (row : PixelCardRow)
  | missing
  | failure (msg : String)

/-- Body of the `try` block of `pixelCardRepository.pixelCardExists`
(lines 194-219 before the surrounding catch): invalid id gives `false`
without a query, `PGRST116` gives `false`, any other backend error is
thrown, a row gives `true`. -/
def pixelCardExistsBody (db : String → QueryOutcome) (id : String) :
    Except String Bool :=
  if !isValidUUID id then
    .ok false
  else
    match db id with
    | .found _ => .ok true
    | .missing => .ok false
    | .failure msg => .error ("Failed to check pixel card existence: " ++ msg)

/-- Embedding of `pixelCardRepository.pixelCardExists` including its
surrounding `catch`, which logs and returns `false` for every thrown
error. -/
def pixelCardExists (db : String → QueryOutcome) (id : String) : Bool :=
  match pixelCardExistsBody db id with
  | .ok b => b
  | .error _ => false

/-- Repository-private `transformRowToPixelCard` (pixelCardRepository.ts
lines 248-259); unlike the typeUtils version it performs no validation. -/
def repoTransformRowToPixelCard (row : PixelCardRow) : PixelCard :=
  { id := row.id
    userName := row.user_name
    imagePath := row.image_path
    imageUrl := row.image_url
    createdAt := ⟨row.created_at⟩
    updatedAt := ⟨row.updated_at⟩
    fileSize := row.file_size
    mimeType := row.mime_type }

/-- Repository-private `transformRowToResponse` (pixelCardRepository.ts
lines 264-272): copies the raw `created_at` string into the response. -/
def repoTransformRowToResponse (row : PixelCardRow) : PixelCardResponse :=
  { id := row.id
    userName := row.user_name
    imageUrl := row.image_url
    createdAt := row.created_at
    fileSize := row.file_size }

/-- Embedding of `pixelCardRepository.getPixelCardById` (lines 85-115).
The boolean of the pair records whether a backend query was issued.  The
outer `catch` re-raises `Error` values unchanged, so errors stay errors. -/
def getPixelCardById (db : String → QueryOutcome) (id : String) :
    Except String (Option PixelCard) × Bool :=
  if !isValidUUID id then
    (.error "Invalid pixel card ID format", false)
  else
    match db id with
    | .missing => (.ok none, true)
    | .failure msg => (.error ("Failed to fetch pixel card: " ++ msg), true)
    | .found row => (.ok (some (repoTransformRowToPixelCard row)), true)

/-- Model of the JavaScript idiom `x || d` on optional integers, as used on
the repository pagination params. -/
def jsOrInt (x : Option Int) (d : Int) : Int :=
  match x with
  | none => d
  | some v => if v = 0 then d else v

/-- Backend queries issued by a repository operation, in order. -/
inductive RepoQuery where
  | countQuery
  | dataQuery (start stop : Int)
deriving DecidableEq, Repr

/-- Pagination metadata block of a gallery response. -/
structure PaginationMeta where
  page : Int
  limit : Int
  total : Nat
  totalPages : Int
deriving DecidableEq, Repr

/-- Gallery list response `{ pixelCards, pagination }`. -/
structure GalleryResponse where
  pixelCards : List PixelCardResponse
  pagination : PaginationMeta
deriving DecidableEq, Repr

/-- Backend oracle for the list-all operation: the outcome of the count
query (`count` may be null), the table rows served by the data query, and
an optional data-query failure. -/
structure GalleryBackend where
  countResult : Except String (Option Nat)
  rows : List PixelCardRow
  dataFailure : Option String

/-- Comparison used to model `order('created_at', { ascending: false })`:
row `a` may precede row `b` when its creation timestamp is at least as
late. -/
def rowLeDesc (a b : PixelCardRow) : Bool :=
  decide (b.created_at ≤ a.created_at)

/-- Model of the backend serving the data query ordered by `created_at`
descending. -/
def sortRowsByCreatedDesc (rows : List PixelCardRow) : List PixelCardRow :=
  rows.mergeSort rowLeDesc

/-- Embedding of `pixelCardRepository.getAllPixelCards` (lines 18-80).
Pagination params are modelled as optional integers; the trace lists the
backend queries actually issued.  When the count is zero the function
returns the empty gallery immediately, with no data query. -/
def getAllPixelCards (b : GalleryBackend) (pageParam limitParam : Option Int) :
    Except String GalleryResponse × List RepoQuery :=
  let page : Int := max 1 (jsOrInt pageParam 1)
  let limit : Int := min (max 1 (jsOrInt limitParam 12)) 50
  let offset : Int := (page - 1) * limit
  match b.countResult with
  | .error msg => (.error ("Failed to get total count: " ++ msg), [.countQuery])
  | .ok countOpt =>
      let total : Nat := countOpt.getD 0
      let totalPages : Int := ((total : Int) + limit - 1) / limit
      if total = 0 then
        (.ok ⟨[], ⟨page, limit, 0, 0⟩⟩, [.countQuery])
      else
        match b.dataFailure with
        | some msg =>
            (.error ("Failed to fetch pixel cards: " ++ msg),
             [.countQuery, .dataQuery offset (offset + limit - 1)])
        | none =>
            let pixelCards :=
              (((sortRowsByCreatedDesc b.rows).drop offset.toNat).take
                limit.toNat).map repoTransformRowToResponse
            (.ok ⟨pixelCards, ⟨page, limit, total, totalPages⟩⟩,
             [.countQuery, .dataQuery offset (offset + limit - 1)])

/-! ## Upload service write path (`src/services/pixelCardService.ts`) -/

/-- Embedding of `extractMimeTypeFromDataUri` (validation.ts lines
232-235), regex `/^data:([^;]+);base64,/`: a greedy non-empty run of
non-semicolon characters after `data:`, followed by `;base64,`. -/
def extractMimeTypeFromDataUri (dataUri : List Char) : Option (List Char) :=
  if startsWithL "data:".data dataUri then
    let rest := dataUri.drop 5
    let mt := rest.takeWhile (fun c => c ≠ ';')
    if !mt.isEmpty && startsWithL ";base64,".data (rest.drop mt.length) then
      some mt
    else
      none
  else
    none

/-- Result of `processImageData`: decoded bytes, MIME type and byte size. -/
structure ProcessedImage where
  imageBuffer : List Nat
  mimeType : List Char
  fileSize : Nat
deriving DecidableEq, Repr

/-- Embedding of `PixelCardService.processImageData` (pixelCardService.ts
lines 65-100).  The platform builtin `atob` is an oracle: `.error` models a
thrown decode exception, `.ok` the decoded bytes. -/
def processImageData (atobFn : List Char → Except String (List Nat))
    (imageData : List Char) : Except String ProcessedImage :=
  match extractMimeTypeFromDataUri imageData with
  | none =>
      .error "Unsupported image format. Allowed formats: image/png, image/jpeg"
  | some mt =>
      if !(mt = "image/png".data || mt = "image/jpeg".data) then
        .error "Unsupported image format. Allowed formats: image/png, image/jpeg"
      else
        let base64Data := splitCommaSecond imageData
        if base64Data.isEmpty then
          .error "No image data found"
        else
          match atobFn base64Data with
          | .error e => .error e
          | .ok buf =>
              let fileSize := buf.length
              if IMAGE_MAX_SIZE_BYTES < fileSize then
                .error "File size exceeds maximum allowed size of 10MB"
              else if fileSize = 0 then
                .error "Image data is empty"
              else
                .ok ⟨buf, mt, fileSize⟩

/-- Row-to-entity mapping inlined in `PixelCardService.saveToDatabase`
(pixelCardService.ts lines 172-181). -/
def serviceRowToPixelCard (row : PixelCardRow) : PixelCard :=
  { id := row.id
    userName := row.user_name
    imagePath := row.image_path
    imageUrl := row.image_url
    createdAt := ⟨row.created_at⟩
    updatedAt := ⟨row.updated_at⟩
    fileSize := row.file_size
    mimeType := row.mime_type }

/-- Embedding of `PixelCardService.transformToResponse` (pixelCardService.ts
lines 187-195). -/
def transformToResponse (dm : DateModel) (pixelCard : PixelCard) :
    PixelCardResponse :=
  { id := pixelCard.id
    userName := pixelCard.userName
    imageUrl := pixelCard.imageUrl
    createdAt := JsDate.toISOString dm pixelCard.createdAt
    fileSize := pixelCard.fileSize }

/-- External collaborators of `savePixelCard`: the `atob` builtin, the blob
storage upload outcome (public URL on success), the metadata insert
outcome, and the `Date` semantics used when rendering the response. -/
structure SaveEnv where
  atobFn : List Char → Except String (List Nat)
  uploadResult : Except String String
  insertResult : Except String PixelCardRow
  dm : DateModel

/-- Which external write effects a `savePixelCard` run attempted. -/
structure SaveEffects where
  uploadAttempted : Bool
  insertAttempted : Bool
deriving DecidableEq, Repr

/-- Embedding of `PixelCardService.savePixelCard` (pixelCardService.ts
lines 21-50): validation, then image processing, then upload, then insert,
each step gating the next.  Filename and path generation (random UUID,
current date) do not influence control flow and are elided from the model;
the pair's second component records which write effects were attempted. -/
def savePixelCard (env : SaveEnv) (request : CreatePixelCardRequest) :
    Except String PixelCardResponse × SaveEffects :=
  let validation := validateCreatePixelCardRequest request
  if !validation.isValid then
    (.error ("Validation failed: " ++ String.intercalate ", " validation.errors),
     ⟨false, false⟩)
  else
    match processImageData env.atobFn request.imageData with
    | .error e => (.error e, ⟨false, false⟩)
    | .ok _processed =>
        match env.uploadResult with
        | .error msg => (.error ("Storage upload failed: " ++ msg), ⟨true, false⟩)
        | .ok _imageUrl =>
            match env.insertResult with
            | .error msg =>
                (.error ("Database insert failed: " ++ msg), ⟨true, true⟩)
            | .ok row =>
                (.ok (transformToResponse env.dm (serviceRowToPixelCard row)),
                 ⟨true, true⟩)

/-! ## Shared list lemmas -/

lemma isB64Char_not_mem {c : Char} (hc : isB64Char c = false) {l : List Char}
    (h : l.all isB64Char = true) : c ∉ l := by
  intro hm
  have hb := List.all_eq_true.mp h c hm
  rw [hc] at hb
  cases hb

lemma comma_not_mem_payload {body : List Char} (h : body.all isB64Char = true)
    (k : Nat) : ',' ∉ body ++ List.replicate k '=' := by
  intro hm
  rcases List.mem_append.mp hm with hm | hm
  · exact isB64Char_not_mem (by decide) h hm
  · rcases List.mem_replicate.mp hm with ⟨-, h2⟩
    exact absurd h2 (by decide)

lemma filter_eq_nil_of_all_b64 {body : List Char} (h : body.all isB64Char = true) :
    body.filter (fun c => c = '=') = [] := by
  apply List.filter_eq_nil_iff.mpr
  intro a ha
  have hb := List.all_eq_true.mp h a ha
  simp only [decide_eq_true_eq]
  rintro rfl
  exact absurd hb (by decide)

lemma filter_replicate_eqChar (k : Nat) :
    (List.replicate k '=').filter (fun c => c = '=') = List.replicate k '=' := by
  induction k with
  | zero => rfl
  | succ n ih => simp [List.replicate_succ, List.filter_cons, ih]

lemma dropWhile_ne_comma_append (rest : List Char) :
    ∀ {pre : List Char}, ',' ∉ pre →
      (pre ++ ',' :: rest).dropWhile (fun c => c ≠ ',') = ',' :: rest
  | [], _ => by simp [List.dropWhile_cons]
  | p :: ps, h => by
      have hp : p ≠ ',' := fun hEq => h (hEq ▸ List.mem_cons_self p ps)
      have hps : ',' ∉ ps := fun hm => h (List.mem_cons_of_mem _ hm)
      rw [List.cons_append, List.dropWhile_cons, if_pos (decide_eq_true hp)]
      exact dropWhile_ne_comma_append rest hps

lemma takeWhile_ne_comma : ∀ {l : List Char}, ',' ∉ l →
    l.takeWhile (fun c => c ≠ ',') = l
  | [], _ => rfl
  | a :: l, h => by
      have ha : a ≠ ',' := fun hEq => h (hEq ▸ List.mem_cons_self a l)
      have hl : ',' ∉ l := fun hm => h (List.mem_cons_of_mem _ hm)
      rw [List.takeWhile_cons, if_pos (decide_eq_true ha), takeWhile_ne_comma hl]

lemma splitCommaSecond_append {pre : List Char} (h1 : ',' ∉ pre)
    {rest : List Char} (h2 : ',' ∉ rest) :
    splitCommaSecond (pre ++ ',' :: rest) = rest := by
  unfold splitCommaSecond
  rw [dropWhile_ne_comma_append rest h1]
  simpa using takeWhile_ne_comma h2

lemma contains_eq_false_of_not_mem {l : List Char} {c : Char} (h : c ∉ l) :
    l.contains c = false := by simpa using h

lemma contains_eq_true_of_mem {l : List Char} {c : Char} (h : c ∈ l) :
    l.contains c = true := by simpa using h

lemma payload_pad_length {body : List Char} (h : body.all isB64Char = true)
    (k : Nat) :
    ((body ++ List.replicate k '=').filter (fun c => c = '=')).length = k := by
  rw [List.filter_append, filter_eq_nil_of_all_b64 h, filter_replicate_eqChar]
  simp

lemma calculateBase64FileSize_payload {body : List Char}
    (h : body.all isB64Char = true) (k : Nat) :
    calculateBase64FileSize (body ++ List.replicate k '=') =
      (((body.length + k) * 3 / 4 : Nat) : Int) - (k : Int) := by
  have hc := contains_eq_false_of_not_mem (comma_not_mem_payload h k)
  have hf := payload_pad_length h k
  unfold calculateBase64FileSize
  rw [hc]
  simp only [Bool.false_eq_true, if_false, hf, List.length_append,
    List.length_replicate]

lemma calculateBase64FileSize_after_comma {pre : List Char} (h1 : ',' ∉ pre)
    {body : List Char} (h2 : body.all isB64Char = true) (k : Nat) :
    calculateBase64FileSize (pre ++ ',' :: (body ++ List.replicate k '=')) =
      (((body.length + k) * 3 / 4 : Nat) : Int) - (k : Int) := by
  have hmem : ',' ∈ pre ++ ',' :: (body ++ List.replicate k '=') := by simp
  have hc := contains_eq_true_of_mem hmem
  have hsp := splitCommaSecond_append h1 (comma_not_mem_payload h2 k)
  have hf := payload_pad_length h2 k
  unfold calculateBase64FileSize
  rw [hc]
  simp only [if_true, hsp, hf, List.length_append, List.length_replicate]

/-! ## Claim theorems -/

/-- C3: for every base64 payload made of alphabet characters followed by
`k` trailing `=` padding characters (total length `L`), the byte-size
estimate `calculateBase64FileSize` equals `floor(L*3/4) - k`; the same
holds after stripping a data-URI segment standing before the comma, and in
particular the payload of `"data:image/png;base64,aGVsbG8="` (8 characters,
1 pad) gives 5. -/
theorem calculateBase64FileSize_spec :
    (∀ (body : List Char) (k : Nat), body.all isB64Char = true →
        calculateBase64FileSize (body ++ List.replicate k '=') =
          (((body.length + k) * 3 / 4 : Nat) : Int) - (k : Int)) ∧
    (∀ (pre body : List Char) (k : Nat), ',' ∉ pre →
        body.all isB64Char = true →
        calculateBase64FileSize (pre ++ ',' :: (body ++ List.replicate k '=')) =
          (((body.length + k) * 3 / 4 : Nat) : Int) - (k : Int)) ∧
    calculateBase64FileSize "data:image/png;base64,aGVsbG8=".data = 5 := by
  refine ⟨?_, ?_, by decide⟩
  · intro body k h
    exact calculateBase64FileSize_payload h k
  · intro pre body k h1 h2
    exact calculateBase64FileSize_after_comma h1 h2 k

/-- Witness for C3 at the concrete payload `aGVsbG8=`. -/
theorem calculateBase64FileSize_spec_witness :
    "aGVsbG8".data.all isB64Char = true ∧
    calculateBase64FileSize ("aGVsbG8".data ++ List.replicate 1 '=') = 5 := by
  refine ⟨by decide, ?_⟩
  have h := calculateBase64FileSize_spec.1 "aGVsbG8".data 1 (by decide)
  rw [h]
  decide

/-- C5: normalized pagination always satisfies `page ≥ 1` and
`1 ≤ limit ≤ 100`, and an absent page defaults to 1 while an absent limit
defaults to 20. -/
theorem validateAndNormalizePagination_spec (page limit : Option Rat) :
    1 ≤ (validateAndNormalizePagination page limit).page ∧
    1 ≤ (validateAndNormalizePagination page limit).limit ∧
    (validateAndNormalizePagination page limit).limit ≤ 100 ∧
    (validateAndNormalizePagination none limit).page = 1 ∧
    (validateAndNormalizePagination page none).limit = 20 := by
  refine ⟨le_max_left 1 _, le_min (by norm_num) (le_max_left 1 _),
    min_le_left _ _, ?_, ?_⟩
  · show max 1 ⌊jsOrNum none 1⌋ = 1
    norm_num [jsOrNum]
  · show min 100 (max 1 ⌊jsOrNum none 20⌋) = 20
    norm_num [jsOrNum]

lemma isEmpty_append (a b : List String) :
    (a ++ b).isEmpty = (a.isEmpty && b.isEmpty) := by
  cases a <;> simp [List.isEmpty]

lemma ne_nil_of_isEmpty_false {l : List String} (h : l.isEmpty = false) :
    l ≠ [] := by
  cases l with
  | nil => cases h
  | cons a t => exact List.cons_ne_nil a t

lemma validateUserName_isValid_eq (u : List Char) :
    (validateUserName u).isValid = (validateUserName u).errors.isEmpty := by
  unfold validateUserName
  split <;> rfl

lemma validateImageData_isValid_eq (i : List Char) :
    (validateImageData i).isValid = (validateImageData i).errors.isEmpty := by
  unfold validateImageData
  dsimp only
  repeat' split
  all_goals rfl

/-- C9: request validation evaluates the name and the image data
independently and aggregates the violations of both: its verdict is the
conjunction of the two field verdicts, and when both fields are invalid the
error list is exactly the name violations followed by the image violations. -/
theorem validateCreatePixelCardRequest_spec (request : CreatePixelCardRequest) :
    (validateCreatePixelCardRequest request).isValid =
      ((validateUserName request.userName).isValid &&
        (validateImageData request.imageData).isValid) ∧
    ((validateUserName request.userName).isValid = false →
      (validateImageData request.imageData).isValid = false →
      (validateCreatePixelCardRequest request).errors =
        (validateUserName request.userName).errors ++
          (validateImageData request.imageData).errors) := by
  have hu := validateUserName_isValid_eq request.userName
  have hi := validateImageData_isValid_eq request.imageData
  constructor
  · cases hu2 : (validateUserName request.userName).isValid <;>
      cases hi2 : (validateImageData request.imageData).isValid <;>
      rw [hu2] at hu <;> rw [hi2] at hi <;>
      simp [validateCreatePixelCardRequest, hu2, hi2, isEmpty_append,
        hu.symm, hi.symm]
  · intro hu2 hi2
    simp [validateCreatePixelCardRequest, hu2, hi2]

/-- Witness for C9: with an empty name and empty image data both field
validators fail and both violations appear, in order. -/
theorem validateCreatePixelCardRequest_spec_witness :
    (validateCreatePixelCardRequest ⟨[], []⟩).errors =
      ["User name is required", "Image data is required"] := by
  have h := (validateCreatePixelCardRequest_spec ⟨[], []⟩).2 (by decide) (by decide)
  rw [h]
  decide

/-- Counterexample for C2 as stated: the single-space name has length 1 and
uses only allowed characters (space is in the class `\s`), yet
`validateUserName` rejects it, because the checks run on the TRIMMED name. -/
theorem validateUserName_space_counterexample :
    ([' '] : List Char).length = 1 ∧
    ([' '] : List Char).all allowedNameChar = true ∧
    (validateUserName [' ']).isValid = false := by
  decide

lemma isEmpty_false_of_length_pos {l : List Char} (h : 1 ≤ l.length) :
    l.isEmpty = false := by
  cases l with
  | nil => exact absurd h (by decide)
  | cons a t => rfl

lemma validateUserName_isValid_char (name : List Char)
    (h0 : name.isEmpty = false) :
    (validateUserName name).isValid =
      (!decide ((jsTrim name).length < 1) &&
        !decide (50 < (jsTrim name).length) &&
        validNamePattern (jsTrim name)) := by
  unfold validateUserName
  rw [h0]
  by_cases hc1 : (jsTrim name).length < 1 <;>
    by_cases hc2 : 50 < (jsTrim name).length <;>
    cases hc3 : validNamePattern (jsTrim name) <;>
    simp [hc1, hc2, hc3, isEmpty_append]

/-- C2 (amended): the bounds and the character-class check of
`validateUserName` apply to the name after trimming leading and trailing
whitespace: a name whose trimmed form has length 1-50 and only allowed
characters passes, and a name whose trimmed form is empty, longer than 50,
or contains a disallowed character fails with a non-empty error list. -/
theorem validateUserName_trimmed_spec (name : List Char) :
    (1 ≤ (jsTrim name).length ∧ (jsTrim name).length ≤ 50 ∧
        (jsTrim name).all allowedNameChar = true →
      (validateUserName name).isValid = true) ∧
    ((jsTrim name).length = 0 ∨ 50 < (jsTrim name).length ∨
        (jsTrim name).all allowedNameChar = false →
      (validateUserName name).isValid = false ∧
        (validateUserName name).errors ≠ []) := by
  constructor
  · rintro ⟨ha, hb, hcall⟩
    by_cases h0 : name = []
    · rw [h0] at ha
      exact absurd ha (by decide)
    · have h0' : name.isEmpty = false := by
        cases name with
        | nil => exact absurd rfl h0
        | cons a l => rfl
      rw [validateUserName_isValid_char name h0']
      have ht : validNamePattern (jsTrim name) = true := by
        unfold validNamePattern
        rw [isEmpty_false_of_length_pos ha, hcall]
        rfl
      have h1 : ¬ (jsTrim name).length < 1 := by omega
      have h2 : ¬ 50 < (jsTrim name).length := by omega
      simp [ht, h1, h2]
  · intro h
    have hfalse : (validateUserName name).isValid = false := by
      by_cases h0 : name = []
      · rw [h0]
        decide
      · have h0' : name.isEmpty = false := by
          cases name with
          | nil => exact absurd rfl h0
          | cons a l => rfl
        rw [validateUserName_isValid_char name h0']
        rcases h with h | h | h
        · have hlt : (jsTrim name).length < 1 := by omega
          simp [hlt]
        · simp [h]
        · simp [validNamePattern, h]
    refine ⟨hfalse, ?_⟩
    have he := validateUserName_isValid_eq name
    rw [hfalse] at he
    exact ne_nil_of_isEmpty_false he.symm

/-- Witness for C2 (amended): a two-letter name passes; a name with a
disallowed character fails. -/
theorem validateUserName_trimmed_spec_witness :
    (validateUserName ['a', 'b']).isValid = true ∧
    (validateUserName ['!']).isValid = false :=
  ⟨(validateUserName_trimmed_spec ['a', 'b']).1 ⟨by decide, by decide, by decide⟩,
    ((validateUserName_trimmed_spec ['!']).2 (Or.inr (Or.inr (by decide)))).1⟩

/-- Counterexample for C1 as stated: on a well-formed identifier with a
backend failure other than not-found, the inner body does raise, but the
surrounding catch of `pixelCardExists` swallows the error and the call
returns `false` instead of propagating the failure. -/
theorem pixelCardExists_error_counterexample :
    isValidUUID "123e4567-e89b-12d3-a456-426614174000" = true ∧
    pixelCardExistsBody (fun _ => QueryOutcome.failure "connection reset")
        "123e4567-e89b-12d3-a456-426614174000" =
      Except.error "Failed to check pixel card existence: connection reset" ∧
    pixelCardExists (fun _ => QueryOutcome.failure "connection reset")
        "123e4567-e89b-12d3-a456-426614174000" = false := by
  exact ⟨by decide, rfl, rfl⟩

/-- C1 (amended): the existence check returns `true` only if the identifier
is well-formed and the backend confirms a matching row; the not-found
condition yields `false`; and every other backend error is caught by the
surrounding handler and also yields `false`, so the check never raises. -/
theorem pixelCardExists_spec (db : String → QueryOutcome) (id : String) :
    (pixelCardExists db id = true →
      isValidUUID id = true ∧ ∃ row, db id = QueryOutcome.found row) ∧
    (db id = QueryOutcome.missing → pixelCardExists db id = false) ∧
    (∀ msg, db id = QueryOutcome.failure msg → pixelCardExists db id = false) := by
  refine ⟨?_, ?_, ?_⟩
  · intro h
    cases hu : isValidUUID id with
    | false => simp [pixelCardExists, pixelCardExistsBody, hu] at h
    | true =>
        refine ⟨rfl, ?_⟩
        cases hdb : db id with
        | found row => exact ⟨row, rfl⟩
        | missing => simp [pixelCardExists, pixelCardExistsBody, hu, hdb] at h
        | failure msg => simp [pixelCardExists, pixelCardExistsBody, hu, hdb] at h
  · intro hdb
    by_cases hu : isValidUUID id = true <;>
      simp [pixelCardExists, pixelCardExistsBody, hu, hdb]
  · intro msg hdb
    by_cases hu : isValidUUID id = true <;>
      simp [pixelCardExists, pixelCardExistsBody, hu, hdb]

/-- Witness for C1 (amended): not-found yields `false`. -/
theorem pixelCardExists_spec_witness :
    pixelCardExists (fun _ => QueryOutcome.missing)
      "123e4567-e89b-12d3-a456-426614174000" = false :=
  (pixelCardExists_spec (fun _ => QueryOutcome.missing)
    "123e4567-e89b-12d3-a456-426614174000").2.1 rfl

/-- C7: get-by-identifier raises the validation error on a malformed
identifier with no backend query issued; on a well-formed identifier a
not-found outcome yields `null` (no error) and any other backend failure is
re-raised wrapped in a descriptive message. -/
theorem getPixelCardById_spec (db : String → QueryOutcome) (id : String) :
    (isValidUUID id = false →
      getPixelCardById db id = (.error "Invalid pixel card ID format", false)) ∧
    (isValidUUID id = true → db id = QueryOutcome.missing →
      getPixelCardById db id = (.ok none, true)) ∧
    (∀ msg, isValidUUID id = true → db id = QueryOutcome.failure msg →
      getPixelCardById db id =
        (.error ("Failed to fetch pixel card: " ++ msg), true)) := by
  refine ⟨?_, ?_, ?_⟩
  · intro hu
    simp [getPixelCardById, hu]
  · intro hu hdb
    simp [getPixelCardById, hu, hdb]
  · intro msg hu hdb
    simp [getPixelCardById, hu, hdb]

/-- Witness for C7 at a malformed identifier and at a not-found outcome. -/
theorem getPixelCardById_spec_witness :
    getPixelCardById (fun _ => QueryOutcome.missing) "not-a-uuid" =
      (.error "Invalid pixel card ID format", false) ∧
    getPixelCardById (fun _ => QueryOutcome.missing)
      "123e4567-e89b-12d3-a456-426614174000" = (.ok none, true) :=
  ⟨(getPixelCardById_spec (fun _ => QueryOutcome.missing) "not-a-uuid").1
      (by decide),
    (getPixelCardById_spec (fun _ => QueryOutcome.missing)
      "123e4567-e89b-12d3-a456-426614174000").2.1 (by decide) rfl⟩

/-- Concrete `Date` semantics used only to close counterexample and witness
statements; the statements below hold for every `DateModel`, because the
rows involved carry identical creation-timestamp strings. -/
def epochDateModel : DateModel :=
  ⟨fun _ => 0, fun _ => "1970-01-01T00:00:00.000Z"⟩

/-- Sample persisted row. -/
def rowA : PixelCardRow :=
  { id := "id1"
    user_name := "Alice"
    image_path := "2024/01/a.png"
    image_url := "https://cdn.example/a.png"
    created_at := "2024-01-02T03:04:05.000Z"
    updated_at := "2024-01-02T03:04:05.000Z"
    file_size := 5
    mime_type := "image/png" }

/-- Row differing from `rowA` exactly in the fields the response omits:
storage path, update timestamp and MIME type. -/
def rowB : PixelCardRow :=
  { id := "id1"
    user_name := "Alice"
    image_path := "2024/01/b.jpeg"
    image_url := "https://cdn.example/a.png"
    created_at := "2024-01-02T03:04:05.000Z"
    updated_at := "2024-06-07T08:09:10.000Z"
    file_size := 5
    mime_type := "image/jpeg" }

/-- Counterexample for C4 as stated: the only entity-to-outward mapping in
the code produces the response shape, which has no storage path, no update
timestamp and no MIME type, so the round trip cannot reproduce every scalar
field of the row: two valid rows differing exactly in those three fields
map to the same result. -/
theorem transformRoundTrip_counterexample :
    rowA ≠ rowB ∧
    rowA.image_path ≠ rowB.image_path ∧
    rowA.updated_at ≠ rowB.updated_at ∧
    rowA.mime_type ≠ rowB.mime_type ∧
    validatePixelCardRow rowA = true ∧ validatePixelCardRow rowB = true ∧
    (transformRowToPixelCard rowA).map
        (transformPixelCardToResponse epochDateModel) =
      (transformRowToPixelCard rowB).map
        (transformPixelCardToResponse epochDateModel) := by
  exact ⟨by decide, by decide, by decide, by decide, by decide, by decide, rfl⟩

/-- C4 (amended): for every valid row, mapping to the entity and then to
the outward response shape preserves every scalar field the response
carries: identifier, name, URL, byte size, and the creation timestamp as an
equivalent instant (given that the ISO rendering round-trips through the
date parser); the storage path, update timestamp and MIME type are omitted
by the response shape and hence not reproduced. -/
theorem transformRoundTrip_spec (dm : DateModel) (row : PixelCardRow)
    (e : PixelCard) (hok : transformRowToPixelCard row = .ok e)
    (hiso : dm.parse (dm.render (dm.parse row.created_at)) =
      dm.parse row.created_at) :
    (transformPixelCardToResponse dm e).id = row.id ∧
    (transformPixelCardToResponse dm e).userName = row.user_name ∧
    (transformPixelCardToResponse dm e).imageUrl = row.image_url ∧
    (transformPixelCardToResponse dm e).fileSize = row.file_size ∧
    dm.parse (transformPixelCardToResponse dm e).createdAt =
      dm.parse row.created_at := by
  unfold transformRowToPixelCard at hok
  by_cases hv : validatePixelCardRow row = true
  · rw [hv] at hok
    simp only [Bool.not_true, Bool.false_eq_true, if_false] at hok
    cases hok
    exact ⟨rfl, rfl, rfl, rfl, hiso⟩
  · have hv' : validatePixelCardRow row = false := by
      cases hb : validatePixelCardRow row with
      | false => rfl
      | true => exact absurd hb hv
    rw [hv'] at hok
    cases hok

/-- Witness for C4 (amended) at `rowA` with the concrete date model. -/
theorem transformRoundTrip_spec_witness :
    (transformPixelCardToResponse epochDateModel
        (repoTransformRowToPixelCard rowA)).id = rowA.id ∧
    (transformPixelCardToResponse epochDateModel
        (repoTransformRowToPixelCard rowA)).userName = rowA.user_name ∧
    (transformPixelCardToResponse epochDateModel
        (repoTransformRowToPixelCard rowA)).imageUrl = rowA.image_url ∧
    (transformPixelCardToResponse epochDateModel
        (repoTransformRowToPixelCard rowA)).fileSize = rowA.file_size ∧
    epochDateModel.parse (transformPixelCardToResponse epochDateModel
        (repoTransformRowToPixelCard rowA)).createdAt =
      epochDateModel.parse rowA.created_at :=
  transformRoundTrip_spec epochDateModel rowA
    (repoTransformRowToPixelCard rowA) rfl rfl

lemma sortRowsByCreatedDesc_pairwise (rows : List PixelCardRow) :
    (sortRowsByCreatedDesc rows).Pairwise
      (fun a b => b.created_at ≤ a.created_at) := by
  have h := @List.sorted_mergeSort PixelCardRow rowLeDesc
    (fun a b c hab hbc => by
      have h1 : b.created_at ≤ a.created_at := of_decide_eq_true hab
      have h2 : c.created_at ≤ b.created_at := of_decide_eq_true hbc
      exact decide_eq_true (le_trans h2 h1))
    (fun a b => by
      rcases le_total b.created_at a.created_at with h | h <;>
        simp [rowLeDesc, h])
    rows
  exact h.imp (fun hx => of_decide_eq_true hx)

lemma pairwise_take_drop_map (rows : List PixelCardRow) (n m : Nat) :
    ((((sortRowsByCreatedDesc rows).drop n).take m).map
      repoTransformRowToResponse).Pairwise
        (fun x y => y.createdAt ≤ x.createdAt) := by
  apply List.pairwise_map.mpr
  refine List.Pairwise.sublist ?_ (sortRowsByCreatedDesc_pairwise rows)
  exact (List.take_sublist m _).trans (List.drop_sublist n _)

/-- C6: with zero persisted rows the list-all operation returns the empty
gallery with `page = 1`, `limit = 12`, `total = 0`, `totalPages = 0`,
raising no error and issuing only the count query (no second query for row
contents); and every successfully returned item list is ordered by
creation time descending. -/
theorem getAllPixelCards_spec (b : GalleryBackend) :
    (b.countResult = .ok (some 0) →
      getAllPixelCards b (some 1) (some 12) =
        (.ok ⟨[], ⟨1, 12, 0, 0⟩⟩, [RepoQuery.countQuery])) ∧
    (∀ (p l : Option Int) (resp : GalleryResponse) (q : List RepoQuery),
      getAllPixelCards b p l = (.ok resp, q) →
      resp.pixelCards.Pairwise (fun x y => y.createdAt ≤ x.createdAt)) := by
  constructor
  · intro hc
    unfold getAllPixelCards
    rw [hc]
    norm_num [jsOrInt]
  · intro p l resp q h
    unfold getAllPixelCards at h
    cases hc : b.countResult with
    | error msg =>
        rw [hc] at h
        simp at h
    | ok countOpt =>
        rw [hc] at h
        dsimp only at h
        by_cases h0 : countOpt.getD 0 = 0
        · rw [if_pos h0] at h
          simp only [Prod.mk.injEq, Except.ok.injEq] at h
          obtain ⟨h1, -⟩ := h
          rw [← h1]
          exact List.Pairwise.nil
        · rw [if_neg h0] at h
          cases hdf : b.dataFailure with
          | some msg =>
              rw [hdf] at h
              simp at h
          | none =>
              rw [hdf] at h
              simp only [Prod.mk.injEq, Except.ok.injEq] at h
              obtain ⟨h1, -⟩ := h
              rw [← h1]
              exact pairwise_take_drop_map b.rows _ _

/-- Witness for C6: a backend with a zero count and no rows. -/
theorem getAllPixelCards_spec_witness :
    getAllPixelCards ⟨.ok (some 0), [], none⟩ (some 1) (some 12) =
      (.ok ⟨[], ⟨1, 12, 0, 0⟩⟩, [RepoQuery.countQuery]) ∧
    ([] : List PixelCardResponse).Pairwise
      (fun x y => y.createdAt ≤ x.createdAt) :=
  ⟨(getAllPixelCards_spec ⟨.ok (some 0), [], none⟩).1 rfl,
    (getAllPixelCards_spec ⟨.ok (some 0), [], none⟩).2 (some 1) (some 12)
      ⟨[], ⟨1, 12, 0, 0⟩⟩ [RepoQuery.countQuery]
      ((getAllPixelCards_spec ⟨.ok (some 0), [], none⟩).1 rfl)⟩

lemma all_replicate_of {c : Char} {p : Char → Bool} (h : p c = true) (n : Nat) :
    (List.replicate n c).all p = true :=
  List.all_eq_true.mpr (fun x hx => by
    rcases List.mem_replicate.mp hx with ⟨-, rfl⟩
    exact h)

lemma replicate_ne_nil {n : Nat} (h : n ≠ 0) (c : Char) :
    List.replicate n c ≠ [] := by
  cases n with
  | zero => exact absurd rfl h
  | succ m =>
      rw [List.replicate_succ]
      exact List.cons_ne_nil _ _

lemma takeWhile_dropWhile_pad : ∀ (k : Nat) {l : List Char},
    l.all isB64Char = true →
      ((List.replicate k '=' ++ l).takeWhile (fun c => c = '=') =
          List.replicate k '=' ∧
        (List.replicate k '=' ++ l).dropWhile (fun c => c = '=') = l)
  | 0, l, h => by
      rw [List.replicate_zero, List.nil_append]
      cases l with
      | nil => exact ⟨rfl, rfl⟩
      | cons a t =>
          have ha := List.all_eq_true.mp h a (List.mem_cons_self a t)
          have ha' : ¬ (a = '=') := fun hEq => by
            rw [hEq] at ha
            exact absurd ha (by decide)
          rw [List.takeWhile_cons, List.dropWhile_cons,
            if_neg (by simpa using ha'), if_neg (by simpa using ha')]
          exact ⟨rfl, rfl⟩
  | (k + 1), l, h => by
      obtain ⟨ht, hd⟩ := takeWhile_dropWhile_pad k h
      rw [List.replicate_succ, List.cons_append, List.takeWhile_cons,
        List.dropWhile_cons, if_pos (by decide), if_pos (by decide), ht, hd]
      exact ⟨(List.replicate_succ _ _).symm, rfl⟩

lemma matchB64_payload {body : List Char} (h : body.all isB64Char = true)
    {k : Nat} (hk : k ≤ 2) :
    matchB64 (body ++ List.replicate k '=') = true := by
  have hrev : body.reverse.all isB64Char = true := by
    rw [List.all_reverse]
    exact h
  obtain ⟨ht, hd⟩ := takeWhile_dropWhile_pad k hrev
  unfold matchB64
  rw [List.reverse_append, List.reverse_replicate, ht, hd,
    List.length_replicate]
  simp [hk, hrev]

lemma startsWithL_append : ∀ (p rest : List Char),
    startsWithL p (p ++ rest) = true
  | [], _ => rfl
  | a :: ps, rest => by
      rw [List.cons_append]
      simp [startsWithL, startsWithL_append ps rest]

lemma splitCommaSecond_pngHeader (payload : List Char) (h : ',' ∉ payload) :
    splitCommaSecond (pngHeader ++ payload) = payload := by
  have hpng : pngHeader ++ payload =
      "data:image/png;base64".data ++ ',' :: payload := rfl
  rw [hpng]
  exact splitCommaSecond_append (by decide) h

lemma validateImageData_oversized {body : List Char} {k : Nat}
    (hb : body.all isB64Char = true) (hk : k ≤ 2) (h0 : body ≠ [])
    (hsize : (IMAGE_MAX_SIZE_BYTES : Rat) <
      estimatedImageSize (body ++ List.replicate k '=')) :
    validateImageData (pngHeader ++ (body ++ List.replicate k '=')) =
      ⟨false, [sizeErrorMsg]⟩ := by
  have hemp : (pngHeader ++ (body ++ List.replicate k '=')).isEmpty = false := rfl
  have hstart := startsWithL_append pngHeader (body ++ List.replicate k '=')
  have hsplit := splitCommaSecond_pngHeader _ (comma_not_mem_payload hb k)
  have hpe : (body ++ List.replicate k '=').isEmpty = false := by
    cases body with
    | nil => exact absurd rfl h0
    | cons a t => rfl
  have hm := matchB64_payload hb hk
  unfold validateImageData
  rw [hemp]
  dsimp only
  rw [hstart, hsplit, hpe, hm]
  simp [hsize]

/-- C10: the size estimate inside `validateImageData` scales by 3/4 without
subtracting the padding count, so on every canonical base64 payload with
`k ≥ 1` padding characters it exceeds `calculateBase64FileSize` by exactly
`k`; consequently a PNG data URI exists whose exact decoded size equals the
10 MiB ceiling and that `validateImageData` nevertheless rejects with the
size-exceeded violation. -/
theorem validateImageData_padding_bias :
    (∀ (body : List Char) (k : Nat), body.all isB64Char = true → 1 ≤ k →
        4 ∣ (body.length + k) →
        estimatedImageSize (body ++ List.replicate k '=') =
          (calculateBase64FileSize (body ++ List.replicate k '=') : Rat) + k) ∧
    (∃ imageData : List Char,
        startsWithL pngHeader imageData = true ∧
        calculateBase64FileSize imageData = (IMAGE_MAX_SIZE_BYTES : Int) ∧
        validateImageData imageData = ⟨false, [sizeErrorMsg]⟩) := by
  constructor
  · intro body k hb hk1 hdvd
    obtain ⟨m, hm⟩ := hdvd
    rw [calculateBase64FileSize_payload hb k]
    unfold estimatedImageSize
    rw [List.length_append, List.length_replicate, hm]
    have h4 : (4 * m * 3 / 4 : Nat) = 3 * m := by omega
    rw [h4]
    push_cast
    ring
  · refine ⟨pngHeader ++ (List.replicate 13981014 'A' ++ List.replicate 2 '='),
      startsWithL_append pngHeader _, ?_, ?_⟩
    · have hb := all_replicate_of (show isB64Char 'A' = true by decide) 13981014
      have h1 : ',' ∉ "data:image/png;base64".data := by decide
      have hcalc := calculateBase64FileSize_after_comma h1 hb 2
      rw [List.length_replicate] at hcalc
      have hpng : pngHeader ++ (List.replicate 13981014 'A' ++ List.replicate 2 '=') =
          "data:image/png;base64".data ++
            ',' :: (List.replicate 13981014 'A' ++ List.replicate 2 '=') := rfl
      rw [hpng, hcalc]
      norm_num [IMAGE_MAX_SIZE_BYTES]
    · have hb := all_replicate_of (show isB64Char 'A' = true by decide) 13981014
      have hsize : (IMAGE_MAX_SIZE_BYTES : Rat) <
          estimatedImageSize
            (List.replicate 13981014 'A' ++ List.replicate 2 '=') := by
        unfold estimatedImageSize
        rw [List.length_append, List.length_replicate, List.length_replicate]
        norm_num [IMAGE_MAX_SIZE_BYTES]
      exact validateImageData_oversized hb (by decide)
        (replicate_ne_nil (by decide) 'A') hsize

/-- Witness for C10 at the payload `aGVsbG8=`: estimate 6, exact size 5,
difference exactly the padding count 1. -/
theorem validateImageData_padding_bias_witness :
    estimatedImageSize ("aGVsbG8".data ++ List.replicate 1 '=') =
      (calculateBase64FileSize ("aGVsbG8".data ++ List.replicate 1 '=') : Rat) + 1 :=
  validateImageData_padding_bias.1 "aGVsbG8".data 1 (by decide) (by decide)
    (by decide)

/-- C8: a creation request whose image payload decodes to more than the
10 MiB ceiling (for example exactly 11 MiB) fails validation with the
size-exceeded violation and `savePixelCard` stops there: neither the blob
upload nor the metadata insert is attempted. -/
theorem savePixelCard_oversized (env : SaveEnv)
    (request : CreatePixelCardRequest) (body : List Char) (k : Nat)
    (himg : request.imageData = pngHeader ++ (body ++ List.replicate k '='))
    (hb : body.all isB64Char = true) (hk : k ≤ 2) (h0 : body ≠ [])
    (hdvd : 4 ∣ (body.length + k))
    (hdec : IMAGE_MAX_SIZE_BYTES < 3 * ((body.length + k) / 4) - k) :
    (savePixelCard env request).2 = ⟨false, false⟩ ∧
    sizeErrorMsg ∈ (validateCreatePixelCardRequest request).errors ∧
    ∃ msg, (savePixelCard env request).1 = Except.error msg := by
  have hsize : (IMAGE_MAX_SIZE_BYTES : Rat) <
      estimatedImageSize (body ++ List.replicate k '=') := by
    obtain ⟨m, hm⟩ := hdvd
    rw [hm] at hdec
    have h4 : (4 * m) / 4 = m := by omega
    rw [h4] at hdec
    have hlt : IMAGE_MAX_SIZE_BYTES < 3 * m := by omega
    unfold estimatedImageSize
    rw [List.length_append, List.length_replicate, hm]
    have hq : ((4 * m : Nat) * 3 : Rat) / 4 = ((3 * m : Nat) : Rat) := by
      push_cast
      ring
    rw [hq]
    exact_mod_cast hlt
  have hval := validateImageData_oversized hb hk h0 hsize
  rw [← himg] at hval
  have hcv : (validateCreatePixelCardRequest request).isValid = false := by
    simp [validateCreatePixelCardRequest, hval, isEmpty_append]
  have hmem : sizeErrorMsg ∈ (validateCreatePixelCardRequest request).errors := by
    simp [validateCreatePixelCardRequest, hval]
  refine ⟨?_, hmem, ?_⟩
  · simp [savePixelCard, hcv]
  · simp [savePixelCard, hcv]

/-- Creation request whose payload decodes to exactly 11 MiB
(encoded length 15379116, one padding character). -/
def oversizedRequest : CreatePixelCardRequest :=
  ⟨"Alice".data, pngHeader ++ (List.replicate 15379115 'A' ++ List.replicate 1 '=')⟩

/-- Stub external collaborators for the witness run; they are never reached
because validation fails first. -/
def stubEnv : SaveEnv :=
  ⟨fun _ => .error "decode failure", .ok "https://cdn.example/p.png",
    .error "insert skipped", epochDateModel⟩

/-- Witness for C8 at the 11 MiB request. -/
theorem savePixelCard_oversized_witness :
    (savePixelCard stubEnv oversizedRequest).2 = ⟨false, false⟩ ∧
    sizeErrorMsg ∈ (validateCreatePixelCardRequest oversizedRequest).errors ∧
    ∃ msg, (savePixelCard stubEnv oversizedRequest).1 = Except.error msg :=
  savePixelCard_oversized stubEnv oversizedRequest
    (List.replicate 15379115 'A') 1 rfl
    (all_replicate_of (by decide) 15379115)
    (by decide)
    (replicate_ne_nil (by decide) 'A')
    (by rw [List.length_replicate]; decide)
    (by rw [List.length_replicate]; decide)

end PixelId
